import Mathlib

/-!
Verification of the plugin installation pipeline of the Picard music tagger
(`picard/plugin3/installer.py`, `picard/plugin3/manager.py`, and the
`picard/ui/plugins_manager/*` services), via a shallow embedding in Lean 4.

Conventions of the embedding:
* Python lists become Lean `List`s; Python sets used only for membership tests
  become `List` membership.
* A plugin API version (`picard.version.Version`) is compared only by equality
  inside the pipeline, so it is embedded as a structure with decidable equality.
* The content of a directory tree is embedded as the list of relative paths of
  its entries (each path a list of name components); `shutil.copytree` with
  `ignore_patterns` copies exactly the paths none of whose components matches
  an ignore pattern.
* Fallible operations return `Except PluginError`; interactions with the real
  filesystem (whether an `OSError` is raised for a given copy plan, whether a
  manifest file is readable) are oracles supplied as parameters.
-/

namespace Picard

/-- A plugin API version (`picard.version.Version`).  The pipeline only ever
compares versions for equality (`set(a) & set(b)`), so major/minor components
with decidable equality model it faithfully. -/
structure ApiVersion where
  major : Nat
  minor : Nat
deriving DecidableEq

/-- `PluginValidator._is_compatible` (installer.py lines 149–152):
`if not api_versions: return False` then
`return bool(set(api_versions) & set(api_versions_tuple))`.
The host's `api_versions_tuple` is passed as the `hostVersions` parameter. -/
def is_compatible (apiVersions hostVersions : List ApiVersion) : Bool :=
  if apiVersions.isEmpty then false
  else apiVersions.any (fun v => hostVersions.contains v)

/-- `_compatible_api_versions` (manager.py lines 186–195):
`set(api_versions) & set(api_versions_tuple)`, as a list with set semantics. -/
def compatible_api_versions (apiVersions hostVersions : List ApiVersion) : List ApiVersion :=
  apiVersions.filter (fun v => hostVersions.contains v)

/-- `_is_plugin_compatible` (manager.py lines 168–183): `False` on an empty
declared set, else nonempty intersection with the host's supported set. -/
def is_plugin_compatible (apiVersions hostVersions : List ApiVersion) : Bool :=
  if apiVersions.isEmpty then false
  else (compatible_api_versions apiVersions hostVersions).length > 0

/-- The exception hierarchy of installer.py lines 36–49: `RepositoryCloneError`,
`ManifestValidationError` and `PluginCopyError`, all subclasses of
`PluginInstallationError`.  Python distinguishes them by class, the embedding
by constructor. -/
inductive PluginErrorKind where
  | repositoryCloneError
  | manifestValidationError
  | pluginCopyError
deriving DecidableEq

/-- A raised `PluginInstallationError`: its concrete class and its message. -/
structure PluginError where
  kind : PluginErrorKind
  msg : String
deriving DecidableEq

/-- A plugin candidate directory as `PluginValidator.validate` observes it:
whether `MANIFEST.toml` and `__init__.py` exist as files, whether opening and
parsing the manifest succeeds (the `OSError` branch), the declared
`api_versions` of the parsed manifest, and the directory name. -/
structure Candidate where
  name : String
  hasManifest : Bool
  hasInit : Bool
  manifestReadable : Bool
  apiVersions : List ApiVersion
deriving DecidableEq

/-- `PluginValidator.validate` (installer.py lines 114–147): reject with
`ManifestValidationError` when either file is missing, when reading the
manifest fails, or when `_is_compatible` is false; otherwise return the
directory name. -/
def validate (hostVersions : List ApiVersion) (c : Candidate) : Except PluginError String :=
  if !(c.hasManifest && c.hasInit) then
    .error ⟨.manifestValidationError, "Not a plugin package: " ++ c.name⟩
  else if !c.manifestReadable then
    .error ⟨.manifestValidationError, "Failed reading manifest: " ++ c.name ++ "/MANIFEST.toml"⟩
  else if !(is_compatible c.apiVersions hostVersions) then
    .error ⟨.manifestValidationError, "Plugin " ++ c.name ++ " is not compatible with this Picard version"⟩
  else
    .ok c.name

/-- `GitRepositoryFetcher.fetch` (installer.py lines 74–90), abstracted over
whether the underlying `pygit2.clone_repository` call fails: a failure raises
`RepositoryCloneError`, success yields the checkout path. -/
def fetch (cloneFails : Bool) (repoUrl destDir : String) : Except PluginError String :=
  if cloneFails then .error ⟨.repositoryCloneError, "Failed cloning " ++ repoUrl⟩
  else .ok destDir

/-! ## Copying plugins into the user's plugin directory (installer.py 155–198) -/

/-- The `ignore_patterns` passed to `shutil.copytree` in
`PluginCopier._copy_one` (installer.py lines 186–194). -/
def ignorePatterns : List String :=
  ["__pycache__", "*.pyc", ".git", ".gitignore", "*.egg-info", ".pytest_cache", ".coverage"]

/-- `fnmatch` semantics restricted to the pattern shapes actually used by
`ignore_patterns`: a pattern starting with `*` (and containing no further
metacharacter) matches any name with the remaining suffix, any other pattern
matches only itself. -/
def fnmatchSimple (pat name : String) : Bool :=
  if pat.startsWith "*" then name.endsWith (pat.drop 1) else name == pat

/-- Whether a directory-entry name is dropped by the ignore callable built from
`ignorePatterns`. -/
def isIgnored (name : String) : Bool :=
  ignorePatterns.any (fun pat => fnmatchSimple pat name)

/-- The content of a plugin source tree, as the list of relative paths of its
entries; each path is its list of name components (deepest last). -/
abbrev TreePaths := List (List String)

/-- The effect of `shutil.copytree(src, dst, ignore=ignore_patterns(...))` on
the set of copied paths: the ignore callable is applied to the listing of every
directory, so an entry is copied exactly when none of its path components is an
ignored name (installer.py lines 181–195). -/
def filterIgnored (src : TreePaths) : TreePaths :=
  src.filter (fun path => !path.any isIgnored)

/-- The user's plugin directory: for each plugin name, `none` when no directory
of that name exists, `some content` when one does. -/
abbrev PluginsRoot := String → Option TreePaths

/-- `PluginCopyPlan` (installer.py lines 155–158); the target is identified by
its plugin directory name under `plugins_root`. -/
structure PluginCopyPlan where
  source : TreePaths
  target : String

/-- Successful branch of `PluginCopier._copy_one` (installer.py lines 176–196):
`shutil.rmtree(target)` when it exists, then `copytree` with the ignore
patterns — the target directory afterwards holds exactly the filtered source
tree, every other directory is untouched. -/
def copyOneEffect (fs : PluginsRoot) (plan : PluginCopyPlan) : PluginsRoot :=
  fun name => if name = plan.target then some (filterIgnored plan.source) else fs name

/-- `PluginCopier.copy` (installer.py lines 172–174) together with the
exception behaviour of `_copy_one`: the plans are processed in order; the first
plan for which the filesystem raises (`OSError` / `shutil.Error`, decided by
the `fails` oracle) raises `PluginCopyError`, which propagates out of the loop,
so earlier effects persist and later plans are never attempted. -/
def copy (fails : PluginCopyPlan → Bool) (fs : PluginsRoot) :
    List PluginCopyPlan → PluginsRoot × Option PluginError
  | [] => (fs, none)
  | plan :: rest =>
    if fails plan then
      (fs, some ⟨.pluginCopyError, "Failed installing plugin to " ++ plan.target⟩)
    else copy fails (copyOneEffect fs plan) rest

/-- The copy-and-report phase of `PluginInstallationService.install_from_git`
(installer.py lines 264–269): build one plan per validated `(name, source)`
pair, run `copier.copy`, and on success report the validated names as
installed; a propagating `PluginCopyError` means no names are reported. -/
def copyPhase (fails : PluginCopyPlan → Bool) (fs : PluginsRoot)
    (validated : List (String × TreePaths)) : PluginsRoot × Except PluginError (List String) :=
  let plans := validated.map (fun nv => PluginCopyPlan.mk nv.2 nv.1)
  match copy fails fs plans with
  | (fs', none) => (fs', .ok (validated.map (fun nv => nv.1)))
  | (fs', some e) => (fs', .error e)

/-! ## Discovery of plugin candidates (installer.py 93–108) -/

/-- A materialized source tree for discovery: the relative paths (component
lists) of all directories of the tree — `[]` being the root directory itself —
and of all files. -/
structure SrcTree where
  dirs : List (List String)
  files : List (List String)

/-- `PluginDiscovery.discover` (installer.py lines 100–108): iterate
`repo_root.rglob("*")` — which yields every entry strictly below the root, and
never the root itself — keep the directories, and keep those containing both an
`__init__.py` file and a `MANIFEST.toml` file. -/
def discover (t : SrcTree) : List (List String) :=
  t.dirs.filter (fun d =>
    !d.isEmpty
      && t.files.contains (d ++ ["__init__.py"])
      && t.files.contains (d ++ ["MANIFEST.toml"]))

/-! ## Enabled-plugins configuration (manager.py 106–126) -/

/-- `PluginManager.set_plugin_enabled` (manager.py lines 110–122) acting on the
persisted `enabled_plugins` list: enabling appends the name when absent,
disabling removes the first occurrence when present (`list.remove`); otherwise
the list is left as it is. -/
def set_plugin_enabled (enabledPlugins : List String) (name : String) (enabled : Bool) :
    List String :=
  if enabled then
    if name ∈ enabledPlugins then enabledPlugins else enabledPlugins ++ [name]
  else
    if name ∈ enabledPlugins then enabledPlugins.erase name else enabledPlugins

/-- `PluginManager.is_plugin_enabled` (manager.py lines 124–126). -/
def is_plugin_enabled (enabledPlugins : List String) (name : String) : Bool :=
  enabledPlugins.contains name

/-- The enabling pass of the installation pipeline
(`PluginInstallationDialog._install_plugins_async` invoking
`_enable_plugin_by_name`, which calls `PluginManager.enable_plugin`, whose
first action is `set_plugin_enabled(name, True)`): every installed plugin name
is enabled in turn. -/
def enableInstalled (enabledPlugins : List String) (installed : List String) : List String :=
  installed.foldl (fun cfg name => set_plugin_enabled cfg name true) enabledPlugins

/-! ## The installation coordinator (install_coordinator.py 42–65) -/

/-- What `okNames` extracts from one `InstallerService.install_from_git` call:
the installed names on success, nothing when a `PluginInstallationError` was
raised. -/
def okNames : Except PluginError (List String) → List String
  | .ok names => names
  | .error _ => []

/-- The URL loop of `InstallCoordinator.install` (install_coordinator.py lines
47–58): skip URLs already seen, otherwise attempt the service call, extending
the installed names on success and counting one error per raised
`PluginInstallationError`.  The per-URL service outcome is the `svc` oracle. -/
def installLoop (svc : String → Except PluginError (List String))
    (seen installed : List String) (errorCount : Nat) : List String → List String × Nat
  | [] => (installed, errorCount)
  | url :: rest =>
    if url ∈ seen then installLoop svc seen installed errorCount rest
    else
      match svc url with
      | .ok names => installLoop svc (url :: seen) (installed ++ names) errorCount rest
      | .error _ => installLoop svc (url :: seen) installed (errorCount + 1) rest

/-- `InstallCoordinator.install` on a collected `urls` input. -/
def coordinator_install (svc : String → Except PluginError (List String))
    (urls : List String) : List String × Nat :=
  installLoop svc [] [] 0 urls

/-- The seen-set deduplication loop shared by `InstallCoordinator.install` and
`RepositoryUrlInputs.valid_urls`: keep a URL when it is not in `seen`, adding
it to `seen`. -/
def dedupAux (seen : List String) : List String → List String
  | [] => []
  | url :: rest =>
    if url ∈ seen then dedupAux seen rest
    else url :: dedupAux (url :: seen) rest

/-- First-occurrence deduplication with an initially empty seen set. -/
def dedupFirst (l : List String) : List String := dedupAux [] l

/-- Modelled from the spec's reading of first-occurrence order, for comparison
with `dedupFirst`: keep each element and drop its later duplicates. -/
def removeLaterDups : List String → List String
  | [] => []
  | url :: rest => url :: removeLaterDups (rest.filter (fun u => u ≠ url))
termination_by l => l.length
decreasing_by
  simp only [List.length_cons]
  exact Nat.lt_succ_of_le (List.length_filter_le _ _)

/-! ## Collecting URL inputs (repository_url_inputs.py 148–158) -/

/-- The non-empty trimmed texts followed by the validator filter, as computed
by `RepositoryUrlInputs.valid_urls` lines 149–151 before deduplication. -/
def validList (isValidGitUrl : String → Bool) (texts : List String) : List String :=
  ((texts.map (fun t => t.trim)).filter (fun t => t ≠ "")).filter isValidGitUrl

/-- `RepositoryUrlInputs.valid_urls` (repository_url_inputs.py lines 148–158):
trim every input text, drop empties, drop texts the validator rejects, then
deduplicate keeping first occurrences. -/
def valid_urls (isValidGitUrl : String → Bool) (texts : List String) : List String :=
  dedupFirst (validList isValidGitUrl texts)

/-! ## The dialog's Install button during a run (plugin_installation_dialog.py) -/

/-- The UI events a git installation run produces on the dialog, in the order
the worker queues them: the synchronous start of the run
(`_install_from_git_async`), one `failed` or `success` per attempted URL, and
the final `complete`. -/
inductive DialogEvent where
  | start
  | failed
  | success
  | complete
deriving DecidableEq

/-- `_update_install_button_state` (plugin_installation_dialog.py lines
719–728), git tab branch: the Install button is enabled exactly when the
inputs currently hold at least one valid URL. -/
def update_install_button_state (validUrls : List String) : Bool :=
  validUrls.length > 0

/-- The Install button state after one UI event is processed:
`_install_from_git_async` line 867 disables it at start,
`_installation_failed` line 1071 re-evaluates it from the current inputs,
`_installation_success` line 1051 and `_installation_complete` line 1188
disable it. -/
def dialogStep (validUrls : List String) (_installEnabled : Bool) :
    DialogEvent → Bool
  | .start => false
  | .failed => update_install_button_state validUrls
  | .success => false
  | .complete => false

/-- The Install button state after a sequence of processed events. -/
def buttonAfter (validUrls : List String) (installEnabled : Bool)
    (events : List DialogEvent) : Bool :=
  events.foldl (dialogStep validUrls) installEnabled

/-- The event sequence the background worker of `_install_plugins_async`
queues after the run has started, given the per-URL outcomes (`true` =
installed, `false` = `PluginInstallationError`). -/
def workerTrace (outcomes : List Bool) : List DialogEvent :=
  (outcomes.map (fun ok => if ok then DialogEvent.success else DialogEvent.failed))
    ++ [DialogEvent.complete]

/-! ## Helper lemmas -/

/-- Boolean list containment agrees with membership. -/
theorem contains_true_iff {α : Type} [BEq α] [LawfulBEq α] (l : List α) (a : α) :
    l.contains a = true ↔ a ∈ l := by
  simp [List.contains, List.elem_iff]

/-- The empty-list guard of `_is_compatible` is redundant: the function always
computes whether some declared version is contained in the host's set. -/
theorem is_compatible_eq_any (a h : List ApiVersion) :
    is_compatible a h = a.any (fun v => h.contains v) := by
  cases a <;> simp [is_compatible]

/-- `_is_compatible` and `_is_plugin_compatible` agree. -/
theorem is_compatible_eq_is_plugin_compatible (a h : List ApiVersion) :
    is_compatible a h = is_plugin_compatible a h := by
  unfold is_compatible is_plugin_compatible compatible_api_versions
  cases ha : a.isEmpty
  · simp only [Bool.false_eq_true, if_false]
    rw [Bool.eq_iff_iff]
    simp [List.any_eq_true, List.length_pos, List.filter_eq_nil_iff, contains_true_iff]
  · simp

/-! ## C1 -/

/-- C1: For every plugin candidate (one whose manifest and entry point files
exist and whose manifest can be read, yielding its declared API version set),
`PluginValidator.validate` accepts the candidate if and only if the declared
API version set shares at least one version with the host's supported set; a
candidate declaring an empty API version set is always rejected, and the
installer's `_is_compatible` agrees with the manager's
`_is_plugin_compatible`. -/
theorem validate_accepts_iff_api_overlap (host : List ApiVersion) (c : Candidate)
    (hm : c.hasManifest = true) (hi : c.hasInit = true) (hr : c.manifestReadable = true) :
    ((validate host c).isOk = true ↔ ∃ v ∈ c.apiVersions, v ∈ host)
    ∧ (∀ c' : Candidate, c'.apiVersions = [] → (validate host c').isOk = false)
    ∧ (∀ a h : List ApiVersion, is_compatible a h = is_plugin_compatible a h) := by
  refine ⟨?_, ?_, is_compatible_eq_is_plugin_compatible⟩
  · rw [validate, hm, hi, hr]
    simp only [Bool.and_self, Bool.not_true, Bool.false_eq_true, if_false]
    cases hcompat : is_compatible c.apiVersions host
    · rw [is_compatible_eq_any] at hcompat
      simp only [hcompat, Bool.not_false, if_true]
      simp only [Except.isOk, Except.toBool, Bool.false_eq_true, false_iff]
      intro ⟨v, hv, hvh⟩
      rw [List.any_eq_false] at hcompat
      exact absurd ((contains_true_iff _ _).mpr hvh) (by simpa using hcompat v hv)
    · rw [is_compatible_eq_any, List.any_eq_true] at hcompat
      simp only [Bool.not_true, Bool.false_eq_true, if_false]
      simp only [Except.isOk, Except.toBool, true_iff]
      obtain ⟨v, hv, hvh⟩ := hcompat
      exact ⟨v, hv, (contains_true_iff _ _).mp hvh⟩
  · intro c' hempty
    rw [validate]
    split
    · rfl
    · split
      · rfl
      · split
        · rfl
        · rename_i hcomp
          rw [is_compatible_eq_any, hempty] at hcomp
          simp at hcomp

/-- Witness for C1 at a concrete accepted candidate. -/
theorem validate_accepts_iff_api_overlap_witness :
    ((validate [ApiVersion.mk 3 0]
        (Candidate.mk "example_plugin" true true true [ApiVersion.mk 3 0])).isOk = true
      ↔ ∃ v ∈ [ApiVersion.mk 3 0], v ∈ [ApiVersion.mk 3 0])
    ∧ (∀ c' : Candidate, c'.apiVersions = [] →
        (validate [ApiVersion.mk 3 0] c').isOk = false)
    ∧ (∀ a h : List ApiVersion, is_compatible a h = is_plugin_compatible a h) :=
  validate_accepts_iff_api_overlap [ApiVersion.mk 3 0]
    (Candidate.mk "example_plugin" true true true [ApiVersion.mk 3 0]) rfl rfl rfl

/-! ## C2 -/

/-- C2 counterexample: with two validated plugins from one source where the
copy of the first raises, the run ends in `PluginCopyError`, the second plugin
is never copied into the plugin directory, and no plugin is reported as
installed — refuting the claim that the remaining validated plugins are still
copied and reported. -/
theorem copy_failure_aborts_rest_counterexample :
    (copyPhase (fun p => p.target == "plugin_a") (fun _ => none)
        [("plugin_a", [["a.py"]]), ("plugin_b", [["b.py"]])]).2 =
      .error ⟨.pluginCopyError, "Failed installing plugin to plugin_a"⟩
    ∧ (copyPhase (fun p => p.target == "plugin_a") (fun _ => none)
        [("plugin_a", [["a.py"]]), ("plugin_b", [["b.py"]])]).1 "plugin_b" = none := by
  constructor <;> rfl

/-- C2 (amended): a filesystem copy failure on one plugin aborts the remainder
of that source's installation — the plans before the first failing plan keep
their effect, the failing plan and all later plans are not copied, the loop
raises `PluginCopyError`, and consequently `install_from_git` reports no
plugins from that source as installed. -/
theorem copy_failure_aborts_whole_source
    (fails : PluginCopyPlan → Bool) (fs : PluginsRoot)
    (pre : List PluginCopyPlan) (p : PluginCopyPlan) (post : List PluginCopyPlan)
    (hpre : ∀ q ∈ pre, fails q = false) (hp : fails p = true) :
    copy fails fs (pre ++ p :: post) =
      (pre.foldl copyOneEffect fs,
        some ⟨.pluginCopyError, "Failed installing plugin to " ++ p.target⟩)
    ∧ ∀ (validated : List (String × TreePaths)) (e : PluginError),
        (copy fails fs (validated.map fun nv => PluginCopyPlan.mk nv.2 nv.1)).2 = some e →
        (copyPhase fails fs validated).2 = .error e := by
  constructor
  · induction pre generalizing fs with
    | nil => simp [copy, hp]
    | cons q qs ih =>
      have hq : fails q = false := hpre q (by simp)
      simp only [List.cons_append, copy, hq, Bool.false_eq_true, if_false, List.foldl_cons]
      exact ih _ (fun r hr => hpre r (List.mem_cons_of_mem q hr))
  · intro validated e he
    unfold copyPhase
    rcases hcopy : copy fails fs (validated.map fun nv => PluginCopyPlan.mk nv.2 nv.1)
      with ⟨fs', err⟩
    rw [hcopy] at he
    simp only at he
    subst he
    show (match copy fails fs
        (validated.map fun nv : String × TreePaths => PluginCopyPlan.mk nv.2 nv.1) with
      | (fs', none) => (fs', Except.ok (validated.map fun nv : String × TreePaths => nv.1))
      | (fs', some e) => (fs', Except.error e)).2 = Except.error e
    rw [hcopy]

/-- Witness for C2's amended theorem at a concrete failing plan. -/
theorem copy_failure_aborts_whole_source_witness :
    copy (fun p => p.target == "plugin_a") (fun _ => none)
        ([PluginCopyPlan.mk [["x.py"]] "earlier"] ++ PluginCopyPlan.mk [] "plugin_a" :: []) =
      ([PluginCopyPlan.mk [["x.py"]] "earlier"].foldl copyOneEffect (fun _ => none),
        some ⟨.pluginCopyError, "Failed installing plugin to plugin_a"⟩)
    ∧ ∀ (validated : List (String × TreePaths)) (e : PluginError),
        (copy (fun p => p.target == "plugin_a") (fun _ => none)
          (validated.map fun nv => PluginCopyPlan.mk nv.2 nv.1)).2 = some e →
        (copyPhase (fun p => p.target == "plugin_a") (fun _ => none) validated).2 = .error e :=
  copy_failure_aborts_whole_source (fun p => p.target == "plugin_a") (fun _ => none)
    [PluginCopyPlan.mk [["x.py"]] "earlier"] (PluginCopyPlan.mk [] "plugin_a") []
    (by intro q hq; simp at hq; subst hq; rfl) rfl

/-! ## C6 -/

/-- C6: a successful `_copy_one` leaves the target plugin directory holding
exactly the candidate's source tree with the ignored patterns filtered out —
whatever was there before is gone — every other plugin directory is unchanged,
and no path in the copied tree has a component matching an ignore pattern. -/
theorem copy_replaces_target_only (fs : PluginsRoot) (plan : PluginCopyPlan)
    (other : String) (hother : other ≠ plan.target) :
    copyOneEffect fs plan plan.target = some (filterIgnored plan.source)
    ∧ copyOneEffect fs plan other = fs other
    ∧ ∀ path ∈ filterIgnored plan.source, ∀ comp ∈ path, isIgnored comp = false := by
  refine ⟨by simp [copyOneEffect], by simp [copyOneEffect, hother], ?_⟩
  intro path hpath comp hcomp
  rw [filterIgnored, List.mem_filter] at hpath
  have hno := hpath.2
  rw [Bool.not_eq_true', List.any_eq_false] at hno
  simpa using hno comp hcomp

/-- Witness for C6 at a concrete plan containing ignored entries. -/
theorem copy_replaces_target_only_witness :
    copyOneEffect (fun _ => some [["stale.py"]])
        (PluginCopyPlan.mk [["__init__.py"], ["__pycache__", "m.pyc"]] "plugin_a") "plugin_a"
      = some (filterIgnored [["__init__.py"], ["__pycache__", "m.pyc"]])
    ∧ copyOneEffect (fun _ => some [["stale.py"]])
        (PluginCopyPlan.mk [["__init__.py"], ["__pycache__", "m.pyc"]] "plugin_a") "plugin_b"
      = (fun _ => some [["stale.py"]] : PluginsRoot) "plugin_b"
    ∧ ∀ path ∈ filterIgnored [["__init__.py"], ["__pycache__", "m.pyc"]],
        ∀ comp ∈ path, isIgnored comp = false :=
  copy_replaces_target_only (fun _ => some [["stale.py"]])
    (PluginCopyPlan.mk [["__init__.py"], ["__pycache__", "m.pyc"]] "plugin_a") "plugin_b"
    (by decide)

/-! ## C7 -/

/-- C7 counterexample: a materialized tree whose root directory itself holds
both `__init__.py` and `MANIFEST.toml` — the root is a directory of the tree
containing both files, yet `discover` (built on `rglob`, which never yields
the root) returns no candidate. -/
theorem discover_root_counterexample :
    ([] : List String) ∈ (SrcTree.mk [[]] [["__init__.py"], ["MANIFEST.toml"]]).dirs
    ∧ (([] : List String) ++ ["__init__.py"])
        ∈ (SrcTree.mk [[]] [["__init__.py"], ["MANIFEST.toml"]]).files
    ∧ (([] : List String) ++ ["MANIFEST.toml"])
        ∈ (SrcTree.mk [[]] [["__init__.py"], ["MANIFEST.toml"]]).files
    ∧ discover (SrcTree.mk [[]] [["__init__.py"], ["MANIFEST.toml"]]) = [] := by
  refine ⟨by simp, by simp, by simp, rfl⟩

/-- C7 (amended): discovery returns exactly the directories strictly below the
root that contain both `__init__.py` and `MANIFEST.toml`; the root directory
itself is never a candidate even when it contains both files (callers such as
`LocalInstallationStrategy.install` check the root separately). -/
theorem discover_characterization (t : SrcTree) (d : List String) :
    d ∈ discover t ↔
      d ∈ t.dirs ∧ d ≠ []
        ∧ (d ++ ["__init__.py"]) ∈ t.files ∧ (d ++ ["MANIFEST.toml"]) ∈ t.files := by
  unfold discover
  rw [List.mem_filter]
  simp only [Bool.and_eq_true, Bool.not_eq_true', List.isEmpty_eq_false, contains_true_iff,
    and_assoc]

/-! ## C3 -/

/-- The concrete error class of a validation outcome, `none` on acceptance. -/
def errorKindOf : Except PluginError String → Option PluginErrorKind
  | .error e => some e.kind
  | .ok _ => none

/-- The user-visible message of `_installation_failed`
(plugin_installation_dialog.py line 1066): `"Installation failed: {}"`
formatted with the raised error's message. -/
def installation_failed_message (errorMessage : String) : String :=
  "Installation failed: " ++ errorMessage

/-- C3 counterexample: a manifest parse failure and an incompatible-API
failure raise the same error kind, `ManifestValidationError` — the three
failure causes are not three pairwise distinct kinds. -/
theorem error_kinds_counterexample :
    errorKindOf (validate [ApiVersion.mk 3 0]
        (Candidate.mk "p1" true true false [ApiVersion.mk 3 0]))
      = some PluginErrorKind.manifestValidationError
    ∧ errorKindOf (validate [ApiVersion.mk 3 0] (Candidate.mk "p2" true true true []))
      = some PluginErrorKind.manifestValidationError
    ∧ errorKindOf (validate [ApiVersion.mk 3 0]
        (Candidate.mk "p1" true true false [ApiVersion.mk 3 0]))
      = errorKindOf (validate [ApiVersion.mk 3 0] (Candidate.mk "p2" true true true [])) := by
  refine ⟨rfl, rfl, rfl⟩

/-- C3 (amended): clone failures raise `RepositoryCloneError` and copy
failures raise `PluginCopyError`; manifest parse failures and
incompatible-API failures both raise the single kind
`ManifestValidationError`, distinguished only by their messages, which never
coincide; the three exception classes themselves are pairwise distinct, and
each failure's message is what the dialog surfaces. -/
theorem error_kinds_amended :
    (∀ repoUrl destDir : String,
      fetch true repoUrl destDir =
        .error ⟨.repositoryCloneError, "Failed cloning " ++ repoUrl⟩)
    ∧ (∀ (fails : PluginCopyPlan → Bool) (fs : PluginsRoot) (plan : PluginCopyPlan)
          (rest : List PluginCopyPlan), fails plan = true →
        (copy fails fs (plan :: rest)).2 =
          some ⟨.pluginCopyError, "Failed installing plugin to " ++ plan.target⟩)
    ∧ (∀ (host : List ApiVersion) (name : String) (vs : List ApiVersion),
        validate host (Candidate.mk name true true false vs) =
          .error ⟨.manifestValidationError,
            "Failed reading manifest: " ++ name ++ "/MANIFEST.toml"⟩)
    ∧ (∀ (host : List ApiVersion) (name : String) (vs : List ApiVersion),
        is_compatible vs host = false →
        validate host (Candidate.mk name true true true vs) =
          .error ⟨.manifestValidationError,
            "Plugin " ++ name ++ " is not compatible with this Picard version"⟩)
    ∧ (PluginErrorKind.repositoryCloneError ≠ PluginErrorKind.manifestValidationError
        ∧ PluginErrorKind.repositoryCloneError ≠ PluginErrorKind.pluginCopyError
        ∧ PluginErrorKind.manifestValidationError ≠ PluginErrorKind.pluginCopyError)
    ∧ (∀ n1 n2 : String,
        installation_failed_message ("Failed reading manifest: " ++ n1 ++ "/MANIFEST.toml") ≠
          installation_failed_message
            ("Plugin " ++ n2 ++ " is not compatible with this Picard version")) := by
  refine ⟨fun _ _ => rfl, ?_, fun _ _ _ => rfl, ?_, by refine ⟨?_, ?_, ?_⟩ <;> decide, ?_⟩
  · intro fails fs plan rest hfail
    simp [copy, hfail]
  · intro host name vs hincompat
    simp [validate, hincompat]
  · intro n1 n2 h
    rw [String.ext_iff] at h
    simp only [installation_failed_message, String.data_append, List.append_assoc] at h
    have h' := List.append_inj_right h rfl
    rw [List.cons_append, List.cons_append] at h'
    injection h' with hhead _
    exact absurd hhead (by decide)

/-- Witness for C3's amended theorem at concrete failures. -/
theorem error_kinds_amended_witness :
    fetch true "https://example.com/r" "/tmp/r" =
      .error ⟨.repositoryCloneError, "Failed cloning " ++ "https://example.com/r"⟩
    ∧ (copy (fun _ => true) (fun _ => none) [PluginCopyPlan.mk [] "plugin_a"]).2 =
      some ⟨.pluginCopyError, "Failed installing plugin to " ++ "plugin_a"⟩
    ∧ validate [] (Candidate.mk "p1" true true false []) =
      .error ⟨.manifestValidationError, "Failed reading manifest: " ++ "p1" ++ "/MANIFEST.toml"⟩
    ∧ validate [] (Candidate.mk "p2" true true true []) =
      .error ⟨.manifestValidationError,
        "Plugin " ++ "p2" ++ " is not compatible with this Picard version"⟩
    ∧ installation_failed_message ("Failed reading manifest: " ++ "p1" ++ "/MANIFEST.toml") ≠
      installation_failed_message
        ("Plugin " ++ "p2" ++ " is not compatible with this Picard version") := by
  have h := error_kinds_amended
  exact ⟨h.1 _ _, h.2.1 _ _ _ _ rfl, h.2.2.1 _ _ _, h.2.2.2.1 _ _ _ rfl, h.2.2.2.2.2 _ _⟩

/-! ## C4 -/

/-- The URL loop of `InstallCoordinator.install`, characterized: over the not
yet seen URLs in first-occurrence order it appends the names of every
successful service call and adds one to the error count for every call that
raises. -/
theorem installLoop_eq (svc : String → Except PluginError (List String))
    (urls seen installed : List String) (errorCount : Nat) :
    installLoop svc seen installed errorCount urls =
      (installed ++ (dedupAux seen urls).flatMap (fun u => okNames (svc u)),
        errorCount + ((dedupAux seen urls).filter (fun u => !(svc u).isOk)).length) := by
  induction urls generalizing seen installed errorCount with
  | nil => simp [installLoop, dedupAux]
  | cons u us ih =>
    by_cases hu : u ∈ seen
    · simp only [installLoop, dedupAux, if_pos hu]
      exact ih seen installed errorCount
    · simp only [installLoop, dedupAux, if_neg hu]
      cases hsvc : svc u with
      | ok names =>
        show installLoop svc (u :: seen) (installed ++ names) errorCount us = _
        rw [ih (u :: seen) (installed ++ names) errorCount, Prod.mk.injEq]
        constructor
        · simp [okNames, hsvc]
        · simp [List.filter_cons, hsvc, Except.isOk, Except.toBool]
      | error e =>
        show installLoop svc (u :: seen) installed (errorCount + 1) us = _
        rw [ih (u :: seen) installed (errorCount + 1), Prod.mk.injEq]
        constructor
        · simp [okNames, hsvc]
        · simp only [List.filter_cons, hsvc, Except.isOk, Except.toBool, Bool.not_false,
            if_true, List.length_cons]
          omega

/-- C4: `InstallCoordinator.install` over a list of repository URLs attempts
every URL not previously seen even when earlier URLs raised
`PluginInstallationError`: the result is the concatenation of the installed
names of every successful URL together with a count of exactly one error per
failed URL. -/
theorem coordinator_install_characterization
    (svc : String → Except PluginError (List String)) (urls : List String) :
    coordinator_install svc urls =
      ((dedupFirst urls).flatMap (fun u => okNames (svc u)),
        ((dedupFirst urls).filter (fun u => !(svc u).isOk)).length) := by
  unfold coordinator_install dedupFirst
  rw [installLoop_eq]
  simp

/-! ## C5 -/

/-- The enabling branch of `set_plugin_enabled`, reduced. -/
theorem set_plugin_enabled_true_eq (cfg : List String) (n : String) :
    set_plugin_enabled cfg n true = if n ∈ cfg then cfg else cfg ++ [n] := by
  simp [set_plugin_enabled]

/-- The disabling branch of `set_plugin_enabled`, reduced. -/
theorem set_plugin_enabled_false_eq (cfg : List String) (n : String) :
    set_plugin_enabled cfg n false = if n ∈ cfg then cfg.erase n else cfg := by
  simp [set_plugin_enabled]

/-- Enabling any plugin never removes another name from `enabled_plugins`. -/
theorem mem_set_plugin_enabled_true (cfg : List String) (n name : String)
    (h : name ∈ cfg) : name ∈ set_plugin_enabled cfg n true := by
  rw [set_plugin_enabled_true_eq]
  split
  · exact h
  · exact List.mem_append_left _ h

/-- Enabling a plugin puts its own name into `enabled_plugins`. -/
theorem self_mem_set_plugin_enabled_true (cfg : List String) (name : String) :
    name ∈ set_plugin_enabled cfg name true := by
  rw [set_plugin_enabled_true_eq]
  split
  · rename_i h
    exact h
  · exact List.mem_append_right _ (List.mem_singleton.mpr rfl)

/-- Membership in `enabled_plugins` survives the whole enabling pass. -/
theorem mem_enableInstalled_of_mem (cfg installed : List String) (name : String)
    (h : name ∈ cfg) : name ∈ enableInstalled cfg installed := by
  induction installed generalizing cfg with
  | nil => exact h
  | cons i rest ih =>
    exact ih (set_plugin_enabled cfg i true) (mem_set_plugin_enabled_true cfg i name h)

/-- C5: after the installation pipeline's enabling pass, every plugin name it
installed is enabled — and since `set_plugin_enabled` writes the list back to
the `enabled_plugins` configuration setting, `is_plugin_enabled` reports it as
enabled. -/
theorem installed_plugins_enabled (cfg installed : List String) (name : String)
    (h : name ∈ installed) :
    is_plugin_enabled (enableInstalled cfg installed) name = true := by
  rw [is_plugin_enabled, contains_true_iff]
  induction installed generalizing cfg with
  | nil => exact absurd h (List.not_mem_nil name)
  | cons i rest ih =>
    rcases List.mem_cons.mp h with hi | hrest
    · subst hi
      exact mem_enableInstalled_of_mem _ rest name
        (self_mem_set_plugin_enabled_true cfg name)
    · exact ih (set_plugin_enabled cfg i true) hrest


/-- Witness for C5 with two installed plugins. -/
theorem installed_plugins_enabled_witness :
    is_plugin_enabled
      (enableInstalled ["already_enabled"] ["plugin_a", "plugin_b"]) "plugin_b" = true :=
  installed_plugins_enabled ["already_enabled"] ["plugin_a", "plugin_b"] "plugin_b"
    (by simp)

/-! ## C8 -/

/-- C8 counterexample: in a run over two URLs whose first installation fails,
the worker's queued event sequence begins with the failure event; once the UI
thread processes it — while the second URL's events and the completion event
are still pending — `_installation_failed` re-evaluates the Install button
from the still-valid inputs and re-enables it.  The trigger is therefore
enabled before the run has finished for all requested sources. -/
theorem install_button_reenabled_counterexample :
    workerTrace [false, true]
      = DialogEvent.failed :: [DialogEvent.success, DialogEvent.complete]
    ∧ buttonAfter ["https://example.com/a", "https://example.com/b"]
        (dialogStep ["https://example.com/a", "https://example.com/b"] true DialogEvent.start)
        [DialogEvent.failed] = true := by
  constructor <;> rfl

/-- C8 (amended): the Install button is disabled when a run starts and stays
disabled while the run is busy as long as no per-URL failure event has been
processed (in particular for any run whose URLs all succeed); a failure
event, however, re-enables it from the current inputs, so after a failed URL
the trigger can be enabled before the run completes. -/
theorem install_button_disabled_without_failures
    (validUrls : List String) (s0 : Bool) (events : List DialogEvent)
    (h : DialogEvent.failed ∉ events) :
    buttonAfter validUrls (dialogStep validUrls s0 DialogEvent.start) events = false := by
  have key : ∀ evs : List DialogEvent, DialogEvent.failed ∉ evs →
      buttonAfter validUrls false evs = false := by
    intro evs
    induction evs with
    | nil => intro _; rfl
    | cons e es ih =>
      intro hmem
      have he : e ≠ DialogEvent.failed := fun hh => hmem (hh ▸ List.mem_cons_self e es)
      have hes : DialogEvent.failed ∉ es := fun hh => hmem (List.mem_cons_of_mem e hh)
      have hstep : dialogStep validUrls false e = false := by
        cases e
        · rfl
        · exact absurd rfl he
        · rfl
        · rfl
      calc buttonAfter validUrls false (e :: es)
          = buttonAfter validUrls (dialogStep validUrls false e) es := rfl
        _ = buttonAfter validUrls false es := by rw [hstep]
        _ = false := ih hes
  exact key events h

/-- Witness for C8's amended theorem: a two-URL run with only successes keeps
the button disabled. -/
theorem install_button_disabled_without_failures_witness :
    buttonAfter ["https://example.com/a"]
      (dialogStep ["https://example.com/a"] true DialogEvent.start)
      [DialogEvent.success, DialogEvent.success, DialogEvent.complete] = false :=
  install_button_disabled_without_failures ["https://example.com/a"] true
    [DialogEvent.success, DialogEvent.success, DialogEvent.complete] (by decide)

/-! ## C9 -/

/-- C9 counterexample: on a persisted `enabled_plugins` list that already
contains a duplicate, enabling the duplicated name leaves both occurrences in
place, so after `set_plugin_enabled(name, True)` the name occurs twice, not at
most once. -/
theorem set_plugin_enabled_duplicates_counterexample :
    set_plugin_enabled ["plugin_a", "plugin_a"] "plugin_a" true = ["plugin_a", "plugin_a"]
    ∧ (set_plugin_enabled ["plugin_a", "plugin_a"] "plugin_a" true).count "plugin_a" = 2 := by
  constructor <;> rfl

/-- C9 (amended): enabling an already-enabled plugin and disabling a
not-enabled plugin both leave `enabled_plugins` unchanged; `set_plugin_enabled`
preserves freedom from duplicates, and on every duplicate-free list — which
includes every list these operations produce — the name occurs exactly once
after `set_plugin_enabled(name, True)`. -/
theorem set_plugin_enabled_idempotent_nodup :
    (∀ (cfg : List String) (name : String), name ∈ cfg →
      set_plugin_enabled cfg name true = cfg)
    ∧ (∀ (cfg : List String) (name : String), name ∉ cfg →
      set_plugin_enabled cfg name false = cfg)
    ∧ (∀ (cfg : List String) (name : String) (enabled : Bool), cfg.Nodup →
      (set_plugin_enabled cfg name enabled).Nodup)
    ∧ (∀ (cfg : List String) (name : String), cfg.Nodup →
      (set_plugin_enabled cfg name true).count name = 1
        ∧ is_plugin_enabled (set_plugin_enabled cfg name true) name = true) := by
  refine ⟨?_, ?_, ?_, ?_⟩
  · intro cfg name h
    rw [set_plugin_enabled_true_eq, if_pos h]
  · intro cfg name h
    rw [set_plugin_enabled_false_eq, if_neg h]
  · intro cfg name enabled hnodup
    cases enabled
    · rw [set_plugin_enabled_false_eq]
      split
      · exact hnodup.erase name
      · exact hnodup
    · rw [set_plugin_enabled_true_eq]
      split
      · exact hnodup
      · rename_i hnotmem
        simp [List.nodup_append, hnodup, hnotmem]
  · intro cfg name hnodup
    constructor
    · rw [set_plugin_enabled_true_eq]
      split
      · rename_i hmem
        exact List.count_eq_one_of_mem hnodup hmem
      · rename_i hnotmem
        rw [List.count_append, List.count_eq_zero.mpr hnotmem]
        simp
    · rw [is_plugin_enabled, contains_true_iff]
      exact self_mem_set_plugin_enabled_true cfg name

/-- Witness for C9's amended theorem on concrete duplicate-free lists. -/
theorem set_plugin_enabled_idempotent_nodup_witness :
    set_plugin_enabled ["plugin_a"] "plugin_a" true = ["plugin_a"]
    ∧ set_plugin_enabled ["plugin_a"] "plugin_b" false = ["plugin_a"]
    ∧ (set_plugin_enabled ["plugin_a"] "plugin_b" true).Nodup
    ∧ ((set_plugin_enabled ["plugin_a"] "plugin_b" true).count "plugin_b" = 1
        ∧ is_plugin_enabled (set_plugin_enabled ["plugin_a"] "plugin_b" true) "plugin_b"
          = true) := by
  have h := set_plugin_enabled_idempotent_nodup
  exact ⟨h.1 ["plugin_a"] "plugin_a" (by simp), h.2.1 ["plugin_a"] "plugin_b" (by simp),
    h.2.2.1 ["plugin_a"] "plugin_b" true (by simp), h.2.2.2 ["plugin_a"] "plugin_b" (by simp)⟩

/-! ## C10 -/

/-- The seen-set loop keeps exactly the input elements outside the seen set. -/
theorem mem_dedupAux (x : String) (l : List String) : ∀ seen : List String,
    x ∈ dedupAux seen l ↔ x ∈ l ∧ x ∉ seen := by
  induction l with
  | nil =>
    intro seen
    simp [dedupAux]
  | cons u us ih =>
    intro seen
    by_cases hu : u ∈ seen
    · rw [dedupAux, if_pos hu, ih seen]
      constructor
      · rintro ⟨hx, hs⟩
        exact ⟨List.mem_cons_of_mem u hx, hs⟩
      · rintro ⟨hx, hs⟩
        rcases List.mem_cons.mp hx with rfl | hx'
        · exact absurd hu hs
        · exact ⟨hx', hs⟩
    · rw [dedupAux, if_neg hu]
      constructor
      · intro hmem
        rcases List.mem_cons.mp hmem with rfl | hx
        · exact ⟨List.mem_cons_self x us, hu⟩
        · rw [ih (u :: seen)] at hx
          exact ⟨List.mem_cons_of_mem u hx.1, fun hs => hx.2 (List.mem_cons_of_mem u hs)⟩
      · rintro ⟨hx, hs⟩
        by_cases hxu : x = u
        · subst hxu
          exact List.mem_cons_self x _
        · rcases List.mem_cons.mp hx with rfl | hx'
          · exact absurd rfl hxu
          · refine List.mem_cons_of_mem u ?_
            rw [ih (u :: seen)]
            refine ⟨hx', fun hmem2 => ?_⟩
            rcases List.mem_cons.mp hmem2 with rfl | h3
            · exact hxu rfl
            · exact hs h3

/-- The seen-set loop never produces a duplicate. -/
theorem dedupAux_nodup (l : List String) : ∀ seen : List String,
    (dedupAux seen l).Nodup := by
  induction l with
  | nil =>
    intro seen
    simp [dedupAux]
  | cons u us ih =>
    intro seen
    by_cases hu : u ∈ seen
    · rw [dedupAux, if_pos hu]
      exact ih seen
    · rw [dedupAux, if_neg hu]
      refine List.nodup_cons.mpr ⟨?_, ih (u :: seen)⟩
      intro hmem
      exact ((mem_dedupAux u us (u :: seen)).mp hmem).2 (List.mem_cons_self u seen)

/-- On a duplicate-free input disjoint from the seen set, the loop is the
identity. -/
theorem dedupAux_eq_self (l : List String) : ∀ seen : List String, l.Nodup →
    (∀ x ∈ l, x ∉ seen) → dedupAux seen l = l := by
  induction l with
  | nil =>
    intro seen _ _
    rfl
  | cons u us ih =>
    intro seen hnodup hdisj
    rw [dedupAux, if_neg (hdisj u (List.mem_cons_self u us))]
    congr 1
    refine ih (u :: seen) (List.nodup_cons.mp hnodup).2 ?_
    intro x hx hmem
    rcases List.mem_cons.mp hmem with rfl | h2
    · exact (List.nodup_cons.mp hnodup).1 hx
    · exact hdisj x (List.mem_cons_of_mem u hx) h2

/-- The seen-set loop computes the keep-first-occurrence deduplication of the
elements outside the seen set. -/
theorem dedupAux_eq_removeLaterDups (l : List String) : ∀ seen : List String,
    dedupAux seen l = removeLaterDups (l.filter (fun x => decide (x ∉ seen))) := by
  induction l with
  | nil =>
    intro seen
    simp [dedupAux, removeLaterDups]
  | cons u us ih =>
    intro seen
    by_cases hu : u ∈ seen
    · rw [dedupAux, if_pos hu, List.filter_cons_of_neg (by simpa using hu)]
      exact ih seen
    · rw [dedupAux, if_neg hu, List.filter_cons_of_pos (by simpa using hu), removeLaterDups]
      congr 1
      rw [ih (u :: seen), List.filter_filter]
      have hpred : (fun a => decide (a ≠ u) && decide (a ∉ seen))
          = (fun x : String => decide (x ∉ u :: seen)) := by
        funext x
        by_cases h1 : x = u
        · subst h1
          simp
        · by_cases h2 : x ∈ seen <;> simp [List.mem_cons, h1, h2]
      rw [hpred]

/-- C10: the collected valid-URL list is the first-occurrence deduplication of
the trimmed, non-empty, validator-accepted inputs — it contains no duplicates
and keeps input order — and `InstallCoordinator.install` behaves on any URL
list exactly as on its first-occurrence deduplication, so each distinct URL is
installed at most once per invocation. -/
theorem valid_urls_dedup_characterization :
    (∀ (isValidGitUrl : String → Bool) (texts : List String),
      valid_urls isValidGitUrl texts = removeLaterDups (validList isValidGitUrl texts))
    ∧ (∀ (isValidGitUrl : String → Bool) (texts : List String),
      (valid_urls isValidGitUrl texts).Nodup)
    ∧ (∀ (svc : String → Except PluginError (List String)) (urls : List String),
      coordinator_install svc urls = coordinator_install svc (dedupFirst urls)) := by
  refine ⟨?_, ?_, ?_⟩
  · intro v ts
    rw [valid_urls, dedupFirst, dedupAux_eq_removeLaterDups]
    congr 1
    simp
  · intro v ts
    exact dedupAux_nodup _ _
  · intro svc urls
    have hidem : dedupAux [] (dedupFirst urls) = dedupFirst urls :=
      dedupAux_eq_self (dedupFirst urls) [] (dedupAux_nodup urls []) (by simp)
    unfold coordinator_install
    rw [installLoop_eq, installLoop_eq, hidem]
    rfl

end Picard
